import Mathlib

/-!
Verification development for the request-dispatch core of the aiproxy
gateway (controller/relay-controller.go).

The Go source is shallowly embedded: pure functions become Lean functions,
the stateful retry loop becomes explicit state passing over a `RetryState`
record, and all environment effects (upstream responses, monitor flags,
random draws, context cancellation) are passed in as explicit inputs.
Go float64 arithmetic in the priority weight and in the decimal billing
computation is modelled with exact rationals; Go int32 conversion of a
nonnegative quotient is modelled with the integer floor.
-/

namespace Aiproxy

/-- Channel status. Modelled from the spec: the model package (not in the
source set) defines `ChannelStatusEnabled`; the spec states
`status ∈ {Enabled, Disabled, …}` and only Enabled channels participate. -/
inductive ChannelStatus where
  | enabled
  | disabled
  | other
deriving DecidableEq, Repr

/-- A channel. `priority` is the value of `channel.GetPriority()`; the model
package is not in the source set, the spec states priority is a positive
integer, so it is carried here as a `Nat` field. -/
structure Channel where
  id : Int
  status : ChannelStatus
  priority : Nat
deriving DecidableEq, Repr

/-- Errors of the channel selector, plus the prepare-retry failure that the
retry loop folds into the same error test. -/
inductive SelErr where
  | channelsNotFound
  | channelsExhausted
  | prepareFailed
deriving DecidableEq, Repr

/-- Embeds `filterChannels`: keep channels whose status is Enabled and whose
id is not in the ignore list, preserving order. -/
def filterChannels (channels : List Channel) (ignoreChannel : List Int) : List Channel :=
  channels.filter (fun channel =>
    channel.status == ChannelStatus.enabled && !(ignoreChannel.contains channel.id))

/-- Go map lookup `errorRates[id]` with the zero value for a missing key. -/
def lookupRate (errorRates : List (Int × ℚ)) (id : Int) : ℚ :=
  (errorRates.lookup id).getD 0

/-- Embeds `getPriority`: clamp the error rate into [0.1, 1] and divide the
channel priority by it; the Go `int32(float64(priority) / errorRate)`
truncation equals the floor because the quotient is nonnegative. -/
def getPriority (channel : Channel) (errorRate : ℚ) : ℤ :=
  let e := if errorRate > 1 then 1 else if errorRate < 1/10 then 1/10 else errorRate
  ⌊(channel.priority : ℚ) / e⌋

/-- The weighted walk of `getRandomChannel`: subtract each cached priority
from `r` and return the first channel driving `r` negative. -/
def walk : List Channel → List ℤ → ℤ → Option Channel
  | ch :: chs, p :: ps, r => if r - p < 0 then some ch else walk chs ps (r - p)
  | _, _, _ => none

/-- `channels[rand.IntN(len(channels))]`: the uniform draw is passed in as a
natural number and reduced mod the length. -/
def uniformPick (l : List Channel) (u : Nat) (d : Channel) : Channel :=
  l.getD (u % l.length) d

/-- Embeds `getRandomChannel`. The two random draws of the Go code
(`rand.Int32N(totalWeight)` and the uniform fallback `rand.IntN`) are passed
in as the inputs `rw` and `ru`. -/
def getRandomChannel (channels : List Channel) (errorRates : List (Int × ℚ))
    (ignoreChannel : List Int) (rw ru : Nat) : Except SelErr Channel :=
  match channels with
  | [] => .error .channelsNotFound
  | _ :: _ =>
    match filterChannels channels ignoreChannel with
    | [] => .error .channelsExhausted
    | c :: cs =>
      if cs = [] then .ok c
      else
        let filtered := c :: cs
        let cachedPrioritys :=
          filtered.map (fun ch => getPriority ch (lookupRate errorRates ch.id))
        let totalWeight := cachedPrioritys.sum
        if totalWeight = 0 then .ok (uniformPick filtered ru c)
        else
          let r := (rw : ℤ) % totalWeight
          match walk filtered cachedPrioritys r with
          | some ch => .ok ch
          | none => .ok (uniformPick filtered ru c)

lemma mem_filterChannels {ch : Channel} {channels : List Channel} {ignore : List Int} :
    ch ∈ filterChannels channels ignore ↔
      ch ∈ channels ∧ ch.status = ChannelStatus.enabled ∧ ch.id ∉ ignore := by
  simp [filterChannels, List.mem_filter, and_assoc]

lemma filterChannels_eq_nil {channels : List Channel} {ignore : List Int} :
    filterChannels channels ignore = [] ↔
      ∀ ch ∈ channels, ¬(ch.status = ChannelStatus.enabled ∧ ch.id ∉ ignore) := by
  simp [filterChannels, List.filter_eq_nil_iff]

lemma walk_mem : ∀ (l : List Channel) (ps : List ℤ) (r : ℤ) (ch : Channel),
    walk l ps r = some ch → ch ∈ l := by
  intro l
  induction l with
  | nil => intro ps r ch h; simp [walk] at h
  | cons x xs ih =>
    intro ps r ch h
    cases ps with
    | nil => simp [walk] at h
    | cons p ps =>
      by_cases hr : r - p < 0
      · simp [walk, hr] at h
        simp [h]
      · simp [walk, hr] at h
        exact List.mem_cons_of_mem _ (ih ps (r - p) ch h)

lemma uniformPick_mem {l : List Channel} (u : Nat) (d : Channel) (h : l ≠ []) :
    uniformPick l u d ∈ l := by
  have hlen : 0 < l.length := List.length_pos.mpr h
  have hlt : u % l.length < l.length := Nat.mod_lt _ hlen
  rw [uniformPick, List.getD_eq_getElem?_getD, List.getElem?_eq_getElem hlt]
  exact List.getElem_mem hlt

lemma getRandomChannel_ok_mem_filtered {channels : List Channel}
    {errorRates : List (Int × ℚ)} {ignore : List Int} {rw ru : Nat} {ch : Channel}
    (h : getRandomChannel channels errorRates ignore rw ru = .ok ch) :
    ch ∈ filterChannels channels ignore := by
  unfold getRandomChannel at h
  cases channels with
  | nil => simp at h
  | cons c0 cs0 =>
    cases hf : filterChannels (c0 :: cs0) ignore with
    | nil => simp [hf] at h
    | cons c cs =>
      simp only [hf] at h
      by_cases hcs : cs = []
      · simp only [hcs, if_true] at h
        cases h
        simp
      · simp only [hcs, if_false] at h
        by_cases hw : (((c :: cs).map
            (fun ch => getPriority ch (lookupRate errorRates ch.id))).sum : ℤ) = 0
        · simp only [hw, if_true] at h
          cases h
          exact uniformPick_mem _ _ (by simp)
        · simp only [hw, if_false] at h
          cases hwalk : walk (c :: cs)
              ((c :: cs).map (fun ch => getPriority ch (lookupRate errorRates ch.id)))
              ((rw : ℤ) % ((c :: cs).map
                (fun ch => getPriority ch (lookupRate errorRates ch.id))).sum) with
          | some ch2 =>
            simp only [hwalk] at h
            cases h
            exact walk_mem _ _ _ _ hwalk
          | none =>
            simp only [hwalk] at h
            cases h
            exact uniformPick_mem _ _ (by simp)

/-- Claim C1: `getRandomChannel` returns `ChannelsNotFound` on an empty
candidate list, `ChannelsExhausted` when every candidate is disabled or
ignored, and otherwise any channel it returns is a member of the candidates,
is Enabled, and is not ignored. -/
theorem claim_C1 (channels : List Channel) (errorRates : List (Int × ℚ))
    (ignore : List Int) (rw ru : Nat) :
    (channels = [] →
      getRandomChannel channels errorRates ignore rw ru = .error .channelsNotFound)
    ∧ (channels ≠ [] →
        (∀ ch ∈ channels, ¬(ch.status = ChannelStatus.enabled ∧ ch.id ∉ ignore)) →
        getRandomChannel channels errorRates ignore rw ru = .error .channelsExhausted)
    ∧ (∀ ch, getRandomChannel channels errorRates ignore rw ru = .ok ch →
        ch ∈ channels ∧ ch.status = ChannelStatus.enabled ∧ ch.id ∉ ignore) := by
  refine ⟨?_, ?_, ?_⟩
  · intro h
    subst h
    rfl
  · intro hne hall
    have hf : filterChannels channels ignore = [] := filterChannels_eq_nil.mpr hall
    cases channels with
    | nil => exact absurd rfl hne
    | cons c0 cs0 =>
      unfold getRandomChannel
      simp only [hf]
  · intro ch h
    exact mem_filterChannels.mp (getRandomChannel_ok_mem_filtered h)

/-- Claim C1 witness: concrete evaluations of all three branches. -/
theorem claim_C1_witness :
    (getRandomChannel [] [] [] 0 0 = .error .channelsNotFound)
    ∧ (getRandomChannel [⟨5, ChannelStatus.disabled, 3⟩] [] [] 0 0
        = .error .channelsExhausted)
    ∧ (⟨7, ChannelStatus.enabled, 3⟩ ∈
          ([⟨7, ChannelStatus.enabled, 3⟩] : List Channel)
        ∧ (⟨7, ChannelStatus.enabled, 3⟩ : Channel).status = ChannelStatus.enabled
        ∧ (⟨7, ChannelStatus.enabled, 3⟩ : Channel).id ∉ ([] : List Int)) := by
  refine ⟨(claim_C1 [] [] [] 0 0).1 rfl, ?_, ?_⟩
  · exact (claim_C1 [⟨5, ChannelStatus.disabled, 3⟩] [] [] 0 0).2.1
      (by decide) (by decide)
  · exact (claim_C1 [⟨7, ChannelStatus.enabled, 3⟩] [] [] 0 0).2.2
      ⟨7, ChannelStatus.enabled, 3⟩ rfl

/-- Claim C3: the selection weight equals
`⌊priority / clamp(errorRate, 0.1, 1.0)⌋`; a channel missing from the
error-rate map is treated as rate 0, clamped to 0.1, giving weight
`10 * priority`; a rate ≥ 1 gives exactly the raw priority. -/
theorem claim_C3 (ch : Channel) (m : List (Int × ℚ)) (e : ℚ) :
    getPriority ch e = ⌊(ch.priority : ℚ) / max (1/10) (min 1 e)⌋
    ∧ (m.lookup ch.id = none →
        getPriority ch (lookupRate m ch.id) = 10 * ch.priority)
    ∧ (1 ≤ e → getPriority ch e = ch.priority) := by
  have hclamp : ∀ x : ℚ,
      (if x > 1 then (1 : ℚ) else if x < 1/10 then 1/10 else x)
        = max (1/10) (min 1 x) := by
    intro x
    by_cases h1 : x > 1
    · rw [if_pos h1, min_eq_left (le_of_lt h1), max_eq_right]
      norm_num
    · rw [if_neg h1]
      push_neg at h1
      rw [min_eq_right h1]
      by_cases h2 : x < 1/10
      · rw [if_pos h2, max_eq_left (le_of_lt h2)]
      · push_neg at h2
        rw [if_neg (not_lt.mpr h2), max_eq_right h2]
  have hten : ∀ p : Nat, ⌊(p : ℚ) / (1/10)⌋ = 10 * p := by
    intro p
    have : (p : ℚ) / (1/10) = ((10 * p : ℤ) : ℚ) := by
      push_cast
      ring
    rw [this, Int.floor_intCast]
  refine ⟨?_, ?_, ?_⟩
  · unfold getPriority
    rw [hclamp]
  · intro hnone
    unfold getPriority lookupRate
    rw [hnone]
    simp only [Option.getD_none]
    norm_num
    exact hten ch.priority
  · intro he
    unfold getPriority
    by_cases h1 : e > 1
    · simp only [h1, if_true]
      simp
    · rw [if_neg h1, if_neg (by push_neg; linarith [he])]
      have : e = 1 := le_antisymm (not_lt.mp h1) he
      rw [this]
      simp

/-- Claim C3 witness: concrete channel with priority 7, missing map entry
gives weight 70, rate 1 gives weight 7. -/
theorem claim_C3_witness :
    getPriority ⟨1, ChannelStatus.enabled, 7⟩ (lookupRate [] 1) = 10 * 7
    ∧ getPriority ⟨1, ChannelStatus.enabled, 7⟩ 1 = 7 := by
  refine ⟨(claim_C3 ⟨1, ChannelStatus.enabled, 7⟩ [] 1).2.1 rfl, ?_⟩
  exact (claim_C3 ⟨1, ChannelStatus.enabled, 7⟩ [] 1).2.2 le_rfl

/-- The error of a `HandleResult`: a status code (Go `ErrorWithStatusCode`;
the opaque JSON payload is irrelevant to the claims). -/
structure ErrorWithStatusCode where
  statusCode : Int
deriving DecidableEq, Repr

/-- The outcome of one handler invocation. -/
structure HandleResult where
  error : Option ErrorWithStatusCode
deriving DecidableEq, Repr

/-- Embeds `shouldRetry`: everything except 400 Bad Request and
413 Payload Too Large is retriable. -/
def shouldRetry (statusCode : Int) : Bool :=
  statusCode != 400 && statusCode != 413

/-- Embeds `channelHasPermission`: the no-permission statuses are
401, 402, 403, 404. -/
def channelHasPermission (statusCode : Int) : Bool :=
  !(statusCode == 401 || statusCode == 402 || statusCode == 403 || statusCode == 404)

/-- Embeds `shouldDelay`: only 429 Too Many Requests. -/
def shouldDelay (statusCode : Int) : Bool :=
  statusCode == 429

/-- One `monitor.AddRequest` call as observed by the health monitor. -/
structure MonitorCall where
  failed : Bool
  noPermission : Bool
deriving DecidableEq, Repr

/-- The three throttled notification kinds `RelayHelper` can emit. -/
inductive Note where
  | autoBanned
  | beyondThreshold
  | noPermission
deriving DecidableEq, Repr

/-- What `RelayHelper` produces: the handler result passed through, the
retry flag, the monitor calls made, and the notifications emitted. -/
structure RelayOut where
  result : HandleResult
  retry : Bool
  monitorCalls : List MonitorCall
  notes : List Note
deriving DecidableEq, Repr

/-- Embeds `RelayHelper`. The handler response is the input `result`; the
monitor's two answer flags (`beyondThreshold`, `banExecution`) are the
environment inputs `beyond` and `ban`. The Go `switch` fires at most the
first matching notification case. -/
def RelayHelper (result : HandleResult) (beyond ban : Bool) : RelayOut :=
  match result.error with
  | none => ⟨result, false, [⟨false, false⟩], []⟩
  | some er =>
    let retry := shouldRetry er.statusCode
    if retry then
      let hasPermission := channelHasPermission er.statusCode
      let notes :=
        if ban then [Note.autoBanned]
        else if beyond then [Note.beyondThreshold]
        else if !hasPermission then [Note.noPermission]
        else []
      ⟨result, retry, [⟨true, !hasPermission⟩], notes⟩
    else ⟨result, retry, [], []⟩

/-- Claim C5: `shouldRetry` is false exactly for 400 and 413; in that case
`RelayHelper` returns retry=false with zero monitor records; otherwise
`channelHasPermission` is false exactly for 401, 402, 403, 404 and the
failure is reported once with `noPermission = !hasPermission`. -/
theorem claim_C5 (sc : Int) (r : HandleResult) (er : ErrorWithStatusCode)
    (beyond ban : Bool) :
    (shouldRetry sc = false ↔ (sc = 400 ∨ sc = 413))
    ∧ (channelHasPermission sc = false ↔
        (sc = 401 ∨ sc = 402 ∨ sc = 403 ∨ sc = 404))
    ∧ (r.error = some er → shouldRetry er.statusCode = false →
        (RelayHelper r beyond ban).retry = false
        ∧ (RelayHelper r beyond ban).monitorCalls = [])
    ∧ (r.error = some er → shouldRetry er.statusCode = true →
        (RelayHelper r beyond ban).retry = true
        ∧ (RelayHelper r beyond ban).monitorCalls
            = [⟨true, !channelHasPermission er.statusCode⟩]) := by
  refine ⟨?_, ?_, ?_, ?_⟩
  · unfold shouldRetry
    constructor
    · intro h
      by_cases h4 : sc = 400
      · exact Or.inl h4
      · right
        by_cases h13 : sc = 413
        · exact h13
        · simp [h4, h13] at h
    · rintro (h | h) <;> simp [h]
  · unfold channelHasPermission
    constructor
    · intro h
      by_cases h1 : sc = 401
      · exact Or.inl h1
      by_cases h2 : sc = 402
      · exact Or.inr (Or.inl h2)
      by_cases h3 : sc = 403
      · exact Or.inr (Or.inr (Or.inl h3))
      by_cases h4 : sc = 404
      · exact Or.inr (Or.inr (Or.inr h4))
      simp [h1, h2, h3, h4] at h
    · intro h
      rcases h with h | h | h | h <;> simp [h]
  · intro he hs
    unfold RelayHelper
    rw [he]
    simp [hs]
  · intro he hs
    unfold RelayHelper
    rw [he]
    simp [hs]

/-- Claim C5 witness: status 400 is not retried (no monitor record); status
403 is retried and reported with noPermission = true. -/
theorem claim_C5_witness :
    ((RelayHelper ⟨some ⟨400⟩⟩ false false).retry = false
      ∧ (RelayHelper ⟨some ⟨400⟩⟩ false false).monitorCalls = [])
    ∧ ((RelayHelper ⟨some ⟨403⟩⟩ false false).retry = true
      ∧ (RelayHelper ⟨some ⟨403⟩⟩ false false).monitorCalls
          = [⟨true, !channelHasPermission 403⟩]) := by
  exact ⟨(claim_C5 400 ⟨some ⟨400⟩⟩ ⟨400⟩ false false).2.2.1 rfl rfl,
    (claim_C5 403 ⟨some ⟨403⟩⟩ ⟨403⟩ false false).2.2.2 rfl rfl⟩

/-- Claim C10: `RelayHelper` emits at most one notification, chosen by
strict precedence ban > threshold > no-permission; a success or a
non-retriable failure emits none. -/
theorem claim_C10 (r : HandleResult) (er : ErrorWithStatusCode) (beyond ban : Bool) :
    ((RelayHelper r beyond ban).notes.length ≤ 1)
    ∧ (r.error = none → (RelayHelper r beyond ban).notes = [])
    ∧ (r.error = some er → shouldRetry er.statusCode = false →
        (RelayHelper r beyond ban).notes = [])
    ∧ (r.error = some er → shouldRetry er.statusCode = true →
        (ban = true → (RelayHelper r beyond ban).notes = [Note.autoBanned])
        ∧ (ban = false → beyond = true →
            (RelayHelper r beyond ban).notes = [Note.beyondThreshold])
        ∧ (ban = false → beyond = false →
            channelHasPermission er.statusCode = false →
            (RelayHelper r beyond ban).notes = [Note.noPermission])
        ∧ (ban = false → beyond = false →
            channelHasPermission er.statusCode = true →
            (RelayHelper r beyond ban).notes = [])) := by
  refine ⟨?_, ?_, ?_, ?_⟩
  · unfold RelayHelper
    cases hr : r.error with
    | none => simp
    | some er2 =>
      simp only []
      by_cases hs : shouldRetry er2.statusCode
      · simp only [hs, if_true]
        by_cases hb : ban
        · simp [hb]
        · by_cases hbt : beyond
          · simp [hb, hbt]
          · by_cases hp : channelHasPermission er2.statusCode
            · simp [hb, hbt, hp]
            · simp [hb, hbt, hp]
      · simp [hs]
  · intro hr
    unfold RelayHelper
    rw [hr]
  · intro hr hs
    unfold RelayHelper
    rw [hr]
    simp [hs]
  · intro hr hs
    unfold RelayHelper
    rw [hr]
    simp only [hs, if_true]
    refine ⟨?_, ?_, ?_, ?_⟩
    · intro hb
      simp [hb]
    · intro hb hbt
      simp [hb, hbt]
    · intro hb hbt hp
      simp [hb, hbt, hp]
    · intro hb hbt hp
      simp [hb, hbt, hp]

/-- Claim C10 witness: with both flags set and a no-permission status only
the auto-banned notification fires; a success emits none. -/
theorem claim_C10_witness :
    (RelayHelper ⟨some ⟨401⟩⟩ true true).notes = [Note.autoBanned]
    ∧ (RelayHelper ⟨none⟩ true true).notes = [] := by
  exact ⟨((claim_C10 ⟨some ⟨401⟩⟩ ⟨401⟩ true true).2.2.2 rfl rfl).1 rfl,
    (claim_C10 ⟨none⟩ ⟨401⟩ true true).2.1 rfl⟩

/-- Request usage estimate (only the field the claims touch). -/
structure Usage where
  inputTokens : Nat
deriving DecidableEq, Repr

/-- Price (only the field the claims touch). The Go float64 price is
modelled as an exact rational. -/
structure Price where
  inputPrice : ℚ
deriving DecidableEq, Repr

/-- Embeds `getPreConsumedAmount`. The shopspring decimal pipeline
(`NewFromInt(tokens).Mul(NewFromFloat(price)).Div(NewFromInt(PriceUnit))`)
is modelled as exact rational arithmetic. `model.PriceUnit` is a constant of
the model package (not in the source set); it is passed as the parameter
`priceUnit`. -/
def getPreConsumedAmount (priceUnit : Int) (usage : Usage) (price : Price) : ℚ :=
  if usage.inputTokens = 0 || price.inputPrice = 0 then 0
  else (usage.inputTokens : ℚ) * price.inputPrice / (priceUnit : ℚ)

/-- Claim C8: the pre-consumed admission amount equals
`InputTokens * InputPrice / PriceUnit` in exact arithmetic, and is exactly 0
whenever `InputTokens = 0` or `InputPrice = 0`. -/
theorem claim_C8 (priceUnit : Int) (usage : Usage) (price : Price) :
    getPreConsumedAmount priceUnit usage price
      = (usage.inputTokens : ℚ) * price.inputPrice / (priceUnit : ℚ)
    ∧ (usage.inputTokens = 0 ∨ price.inputPrice = 0 →
        getPreConsumedAmount priceUnit usage price = 0) := by
  constructor
  · unfold getPreConsumedAmount
    by_cases ht : usage.inputTokens = 0
    · simp [ht]
    · by_cases hp : price.inputPrice = 0
      · simp [hp]
      · simp [ht, hp]
  · intro h
    unfold getPreConsumedAmount
    rcases h with h | h <;> simp [h]

/-- Claim C8 witness: zero tokens give amount 0, and a concrete nonzero
input evaluates to the exact quotient. -/
theorem claim_C8_witness :
    getPreConsumedAmount 1000000 ⟨0⟩ ⟨3⟩ = 0
    ∧ getPreConsumedAmount 1000000 ⟨200⟩ ⟨3⟩ = (200 : ℚ) * 3 / 1000000 := by
  exact ⟨(claim_C8 1000000 ⟨0⟩ ⟨3⟩).2 (Or.inl rfl),
    (claim_C8 1000000 ⟨200⟩ ⟨3⟩).1⟩

/-- The request-scoped retry state (`retryState` in the source). `meta` is
the bound channel of the stashed attempt (nil-able in Go, hence `Option`),
`result` the stashed attempt outcome. `inputTokens` and `price` are carried
but irrelevant to the claims. -/
structure RetryState where
  retryTimes : Int
  lastHasPermissionChannel : Option Channel
  ignoreChannelIDs : List Int
  errorRates : List (Int × ℚ)
  exhausted : Bool
  meta : Option Channel
  price : Price
  inputTokens : Int
  result : Option HandleResult
  migratedChannels : List Channel
deriving DecidableEq, Repr

/-- The initial-channel record built by `getInitialChannel`. -/
structure InitialChannel where
  channel : Channel
  designatedChannel : Bool
  ignoreChannelIDs : List Int
  errorRates : List (Int × ℚ)
  migratedChannels : List Channel
deriving DecidableEq, Repr

/-- Embeds `getChannelWithFallback`: select with the provided ignore list;
on `ChannelsExhausted` retry once with an empty ignore list. The deduped
union of the availability sets is the input `migrated` (Go builds it by map
iteration, so its order is an environment input). -/
def getChannelWithFallback (migrated : List Channel) (errorRates : List (Int × ℚ))
    (ignore : List Int) (rw ru rw2 ru2 : Nat) : Except SelErr Channel :=
  match getRandomChannel migrated errorRates ignore rw ru with
  | .ok ch => .ok ch
  | .error er =>
    if er = .channelsExhausted then getRandomChannel migrated errorRates [] rw2 ru2
    else .error er

/-- Embeds `getInitialChannel`: a designated channel short-circuits with
empty ignore list and no candidates; otherwise the ignore list is the
banned-channel snapshot `bannedIds` fetched from the monitor at entry. -/
def getInitialChannel (designated : Option Channel) (bannedIds : List Int)
    (errorRates : List (Int × ℚ)) (migrated : List Channel)
    (rw ru rw2 ru2 : Nat) : Option InitialChannel :=
  match designated with
  | some ch => some ⟨ch, true, [], [], []⟩
  | none =>
    match getChannelWithFallback migrated errorRates bannedIds rw ru rw2 ru2 with
    | .error _ => none
    | .ok ch => some ⟨ch, false, bannedIds, errorRates, migrated⟩

/-- Embeds `handleRelayResult`: done on success, and done (emitting the
error as the response) when retry is off, the budget is zero, or the
context is cancelled. -/
def handleRelayResult (bizErr : Option ErrorWithStatusCode) (retry : Bool)
    (retryTimes : Int) (ctxErr : Bool) : Bool :=
  match bizErr with
  | none => true
  | some _ => if !retry || retryTimes == 0 || ctxErr then true else false

/-- Embeds `initRetryState`. The Go code dereferences
`result.Error.StatusCode` unconditionally; the `none` branch here returns
the base state and is proven unreachable in claim C9. -/
def initRetryState (retryTimes : Int) (channel : InitialChannel)
    (price : Price) (inputTokens : Int) (result : HandleResult) : RetryState :=
  let state : RetryState :=
    { retryTimes := retryTimes
      lastHasPermissionChannel := none
      ignoreChannelIDs := channel.ignoreChannelIDs
      errorRates := channel.errorRates
      exhausted := channel.designatedChannel
      meta := some channel.channel
      price := price
      inputTokens := inputTokens
      result := some result
      migratedChannels := channel.migratedChannels }
  match result.error with
  | none => state
  | some er =>
    if !channelHasPermission er.statusCode then
      { state with ignoreChannelIDs := state.ignoreChannelIDs ++ [channel.channel.id] }
    else
      { state with lastHasPermissionChannel := some channel.channel }

/-- The status-code dereference `state.result.Error.StatusCode`: `none`
when the Go code would fault on a nil pointer. -/
def statusDeref (state : RetryState) : Option Int :=
  (state.result.bind (fun r => r.error)).map (fun er => er.statusCode)

/-- Embeds `getRetryChannel`, also returning the possibly updated state
(the exhausted-transition mutates it) and a flag that is false when a
nil-pointer dereference of `state.result.Error` would have occurred. -/
def getRetryChannel (state : RetryState) (rw ru : Nat) :
    Except SelErr Channel × RetryState × Bool :=
  if state.exhausted then
    match state.lastHasPermissionChannel with
    | none => (.error .channelsExhausted, state, true)
    | some ch => (.ok ch, state, (statusDeref state).isSome)
  else
    match getRandomChannel state.migratedChannels state.errorRates
        state.ignoreChannelIDs rw ru with
    | .ok ch => (.ok ch, state, true)
    | .error er =>
      if er = .channelsExhausted then
        match state.lastHasPermissionChannel with
        | none => (.error er, state, true)
        | some ch =>
          (.ok ch, { state with exhausted := true }, (statusDeref state).isSome)
      else (.error er, state, true)

/-- Embeds `handleRetryResult`, returning the updated state, the done flag,
and a flag that is false when the Go code would have dereferenced a nil
`state.result`. The Go short-circuit evaluates `!retry` before touching
`state.result.Error`. -/
def handleRetryResult (ctxErr retry : Bool) (newChannel : Channel)
    (state : RetryState) : RetryState × Bool × Bool :=
  if ctxErr then (state, true, true)
  else if !retry then (state, true, true)
  else
    match state.result with
    | none => (state, true, false)
    | some r =>
      match r.error with
      | none => (state, true, true)
      | some er =>
        if state.exhausted then
          if !channelHasPermission er.statusCode then (state, true, true)
          else (state, false, true)
        else
          if !channelHasPermission er.statusCode then
            ({ state with
                ignoreChannelIDs := state.ignoreChannelIDs ++ [newChannel.id]
                retryTimes := state.retryTimes + 1 }, false, true)
          else
            ({ state with lastHasPermissionChannel := some newChannel }, false, true)

/-- Environment inputs consumed by one iteration of the retry loop: the two
random draws for the selector, whether `prepareRetry` succeeds, the upstream
outcome of the attempt, the monitor answer flags, and whether the request
context is cancelled at the classification point. -/
structure ScriptEntry where
  rw : Nat
  ru : Nat
  prepOk : Bool
  outcome : HandleResult
  beyond : Bool
  ban : Bool
  ctxErr : Bool
deriving DecidableEq, Repr

/-- Outcome of one loop iteration: either the loop breaks (`halt`) or goes
around (`next`). Both carry the new state, the consumption records appended
by this iteration as `(attemptIndex, downstreamResult)` pairs, the attempt
log entries `(channelId, errorStatus)`, and the accumulated
nil-dereference-safety flag. -/
inductive StepOut where
  | halt (state : RetryState) (recs : List (Nat × Bool))
      (log : List (Int × Option Int)) (safe : Bool)
  | next (state : RetryState) (recs : List (Nat × Bool))
      (log : List (Int × Option Int)) (safe : Bool)
deriving DecidableEq, Repr

/-- One iteration of the body of `retryLoop`, at loop counter `i`. -/
def loopStep (e : ScriptEntry) (state : RetryState) (i : Nat) : StepOut :=
  match getRetryChannel state e.rw e.ru with
  | (.error _, state1, safe1) =>
    .halt state1
      (if state1.meta.isSome && state1.result.isSome then [(i, true)] else [])
      [] safe1
  | (.ok newChannel, state1, safe1) =>
    if e.prepOk then
      let recs1 :=
        if state1.meta.isSome && state1.result.isSome then [(i, false)] else []
      let state2 :=
        if state1.meta.isSome && state1.result.isSome then
          { state1 with meta := none, result := none }
        else state1
      let out := RelayHelper e.outcome e.beyond e.ban
      let state3 := { state2 with meta := some newChannel, result := some out.result }
      let logE := [(newChannel.id, out.result.error.map (fun er => er.statusCode))]
      match handleRetryResult e.ctxErr out.retry newChannel state3 with
      | (state4, done, safe2) =>
        if done || (i : Int) == state4.retryTimes - 1 then
          .halt state4 (recs1 ++ [(i + 1, true)]) logE (safe1 && safe2)
        else
          .next state4 recs1 logE (safe1 && safe2)
    else
      .halt state1
        (if state1.meta.isSome && state1.result.isSome then [(i, true)] else [])
        [] safe1

/-- Whether the post-loop `c.JSON` fires: `state.result.Error != nil`. -/
def emittedOf (state : RetryState) : Bool :=
  match state.result with
  | none => false
  | some r => r.error.isSome

/-- The post-loop check dereferences `state.result`; safe only when it is
non-nil. -/
def emitSafe (state : RetryState) : Bool :=
  state.result.isSome

/-- Result of running the retry loop to completion. -/
structure LoopOut where
  final : RetryState
  recs : List (Nat × Bool)
  log : List (Int × Option Int)
  emitted : Bool
  safe : Bool
deriving DecidableEq, Repr

/-- Embeds `retryLoop` as recursion over the environment script; `none`
when the script is too short to drive the loop to its break. -/
def retryLoopGo : List ScriptEntry → RetryState → Nat → Option LoopOut
  | [], _, _ => none
  | e :: rest, state, i =>
    match loopStep e state i with
    | .halt st recs log safe =>
      some ⟨st, recs, log, emittedOf st, safe && emitSafe st⟩
    | .next st recs log safe =>
      match retryLoopGo rest st (i + 1) with
      | none => none
      | some out =>
        some ⟨out.final, recs ++ out.recs, log ++ out.log, out.emitted,
          safe && out.safe⟩

/-- Result of one whole request: consumption records, attempt log, whether
an error response was written, and the final retry state when the loop ran. -/
structure RunOut where
  recs : List (Nat × Bool)
  log : List (Int × Option Int)
  emitted : Bool
  final : Option RetryState
deriving DecidableEq, Repr

/-- Embeds `relay`: initial channel selection, first attempt, fast exit via
`handleRelayResult` (recording attempt 0 as the downstream result), or
construction of the retry state and the retry loop. -/
def relay (designated : Option Channel) (bannedIds : List Int)
    (errorRates : List (Int × ℚ)) (migrated : List Channel)
    (rw ru rw2 ru2 : Nat) (price : Price) (inputTokens : Int)
    (firstOutcome : HandleResult) (beyond0 ban0 : Bool)
    (retryTimes : Int) (ctxErr0 : Bool) (script : List ScriptEntry) :
    Option RunOut :=
  match getInitialChannel designated bannedIds errorRates migrated rw ru rw2 ru2 with
  | none => none
  | some initialChannel =>
    let out0 := RelayHelper firstOutcome beyond0 ban0
    let log0 := [(initialChannel.channel.id,
      firstOutcome.error.map (fun er => er.statusCode))]
    if handleRelayResult firstOutcome.error out0.retry retryTimes ctxErr0 then
      some ⟨[(0, true)], log0, firstOutcome.error.isSome, none⟩
    else
      match retryLoopGo script
          (initRetryState retryTimes initialChannel price inputTokens firstOutcome) 0 with
      | none => none
      | some lout =>
        some ⟨lout.recs, log0 ++ lout.log, lout.emitted, some lout.final⟩

/-- The loop-entry invariant: a stashed meta and a stashed result whose
error is non-nil. -/
def stateInv (state : RetryState) : Bool :=
  state.meta.isSome && (state.result.bind (fun r => r.error)).isSome

/-- The id responded with a no-permission status somewhere in the log. -/
def noPermLogged (log : List (Int × Option Int)) (id : Int) : Prop :=
  ∃ s, (id, some s) ∈ log ∧ channelHasPermission s = false

/-- Facts one loop iteration guarantees about the state transition: the
budget never shrinks, the ignore list only grows, and any new ignore entry
is a logged no-permission responder. -/
def StepOk (state st : RetryState) (log : List (Int × Option Int)) : Prop :=
  state.retryTimes ≤ st.retryTimes
  ∧ (∀ id ∈ state.ignoreChannelIDs, id ∈ st.ignoreChannelIDs)
  ∧ (∀ id ∈ st.ignoreChannelIDs, id ∈ state.ignoreChannelIDs ∨ noPermLogged log id)

lemma noPermLogged_append_left {l1 l2 : List (Int × Option Int)} {id : Int}
    (h : noPermLogged l1 id) : noPermLogged (l1 ++ l2) id := by
  obtain ⟨s, hmem, hperm⟩ := h
  exact ⟨s, List.mem_append_left _ hmem, hperm⟩

lemma noPermLogged_append_right {l1 l2 : List (Int × Option Int)} {id : Int}
    (h : noPermLogged l2 id) : noPermLogged (l1 ++ l2) id := by
  obtain ⟨s, hmem, hperm⟩ := h
  exact ⟨s, List.mem_append_right _ hmem, hperm⟩

lemma RelayHelper_result (r : HandleResult) (beyond ban : Bool) :
    (RelayHelper r beyond ban).result = r := by
  unfold RelayHelper
  cases hr : r.error with
  | none => rfl
  | some er => by_cases hs : shouldRetry er.statusCode <;> simp [hs]

lemma handleRelayResult_false {bizErr : Option ErrorWithStatusCode} {retry : Bool}
    {retryTimes : Int} {ctxErr : Bool}
    (h : handleRelayResult bizErr retry retryTimes ctxErr = false) :
    bizErr.isSome = true := by
  cases bizErr with
  | none => simp [handleRelayResult] at h
  | some e => rfl

lemma stateInv_meta {state : RetryState} (h : stateInv state = true) :
    state.meta.isSome = true := by
  unfold stateInv at h
  simp only [Bool.and_eq_true] at h
  exact h.1

lemma stateInv_error {state : RetryState} (h : stateInv state = true) :
    ∃ r er, state.result = some r ∧ r.error = some er := by
  unfold stateInv at h
  simp only [Bool.and_eq_true] at h
  have h2 := h.2
  cases hres : state.result with
  | none => rw [hres] at h2; simp at h2
  | some r =>
    rw [hres] at h2
    cases her : r.error with
    | none => rw [Option.some_bind, her] at h2; simp at h2
    | some er => exact ⟨r, er, rfl, her⟩

lemma stateInv_result {state : RetryState} (h : stateInv state = true) :
    state.result.isSome = true := by
  obtain ⟨r, er, hres, her⟩ := stateInv_error h
  rw [hres]
  rfl

lemma statusDeref_isSome {state : RetryState} (h : stateInv state = true) :
    (statusDeref state).isSome = true := by
  obtain ⟨r, er, hres, her⟩ := stateInv_error h
  unfold statusDeref
  rw [hres, Option.some_bind, her]
  rfl

lemma getRetryChannel_spec {state : RetryState} {rw ru : Nat}
    {res : Except SelErr Channel} {st : RetryState} {safe : Bool}
    (hinv : stateInv state = true)
    (hg : getRetryChannel state rw ru = (res, st, safe)) :
    safe = true ∧ st.ignoreChannelIDs = state.ignoreChannelIDs
    ∧ st.retryTimes = state.retryTimes ∧ st.result = state.result
    ∧ st.meta = state.meta := by
  unfold getRetryChannel at hg
  by_cases hex : state.exhausted
  · rw [if_pos hex] at hg
    cases hl : state.lastHasPermissionChannel with
    | none =>
      rw [hl] at hg
      cases hg
      exact ⟨rfl, rfl, rfl, rfl, rfl⟩
    | some ch =>
      rw [hl] at hg
      cases hg
      exact ⟨statusDeref_isSome hinv, rfl, rfl, rfl, rfl⟩
  · rw [if_neg hex] at hg
    cases hr : getRandomChannel state.migratedChannels state.errorRates
        state.ignoreChannelIDs rw ru with
    | ok ch =>
      rw [hr] at hg
      cases hg
      exact ⟨rfl, rfl, rfl, rfl, rfl⟩
    | error er =>
      rw [hr] at hg
      dsimp only at hg
      by_cases he : er = SelErr.channelsExhausted
      · rw [if_pos he] at hg
        cases hl : state.lastHasPermissionChannel with
        | none =>
          rw [hl] at hg
          cases hg
          exact ⟨rfl, rfl, rfl, rfl, rfl⟩
        | some ch =>
          rw [hl] at hg
          cases hg
          exact ⟨statusDeref_isSome hinv, rfl, rfl, rfl, rfl⟩
      · rw [if_neg he] at hg
        cases hg
        exact ⟨rfl, rfl, rfl, rfl, rfl⟩

lemma handleRetryResult_spec {ctxErr retry : Bool} {newChannel : Channel}
    {state st : RetryState} {done safe : Bool}
    (h : handleRetryResult ctxErr retry newChannel state = (st, done, safe)) :
    (state.result.isSome = true → safe = true)
    ∧ st.result = state.result ∧ st.meta = state.meta
    ∧ state.retryTimes ≤ st.retryTimes
    ∧ (st.ignoreChannelIDs = state.ignoreChannelIDs
        ∨ ∃ r er, state.result = some r ∧ r.error = some er
            ∧ channelHasPermission er.statusCode = false
            ∧ st.ignoreChannelIDs = state.ignoreChannelIDs ++ [newChannel.id])
    ∧ (done = false → ∃ r er, state.result = some r ∧ r.error = some er) := by
  unfold handleRetryResult at h
  cases ctxErr with
  | true =>
    simp only [if_true] at h
    cases h
    exact ⟨fun _ => rfl, rfl, rfl, le_refl _, Or.inl rfl, by simp⟩
  | false =>
    simp only [Bool.false_eq_true, if_false] at h
    cases retry with
    | false =>
      simp only [Bool.not_false, if_true] at h
      cases h
      exact ⟨fun _ => rfl, rfl, rfl, le_refl _, Or.inl rfl, by simp⟩
    | true =>
      simp only [Bool.not_true, Bool.false_eq_true, if_false] at h
      cases hres : state.result with
      | none =>
        rw [hres] at h
        cases h
        exact ⟨by intro hc; simp at hc, hres, rfl, le_refl _, Or.inl rfl, by simp⟩
      | some r =>
        rw [hres] at h
        dsimp only at h
        cases her : r.error with
        | none =>
          rw [her] at h
          cases h
          exact ⟨fun _ => rfl, hres, rfl, le_refl _, Or.inl rfl, by simp⟩
        | some er =>
          rw [her] at h
          dsimp only at h
          by_cases hex : state.exhausted
          · rw [if_pos hex] at h
            by_cases hperm : channelHasPermission er.statusCode
            · simp only [hperm, Bool.not_true, Bool.false_eq_true, if_false] at h
              cases h
              exact ⟨fun _ => rfl, hres, rfl, le_refl _, Or.inl rfl,
                fun _ => ⟨r, er, rfl, her⟩⟩
            · simp only [Bool.not_eq_true] at hperm
              simp only [hperm, Bool.not_false, if_true] at h
              cases h
              exact ⟨fun _ => rfl, hres, rfl, le_refl _, Or.inl rfl, by simp⟩
          · rw [if_neg hex] at h
            by_cases hperm : channelHasPermission er.statusCode
            · simp only [hperm, Bool.not_true, Bool.false_eq_true, if_false] at h
              cases h
              exact ⟨fun _ => rfl, rfl, rfl, le_refl _, Or.inl rfl,
                fun _ => ⟨r, er, rfl, her⟩⟩
            · simp only [Bool.not_eq_true] at hperm
              simp only [hperm, Bool.not_false, if_true] at h
              cases h
              exact ⟨fun _ => rfl, rfl, rfl,
                by change state.retryTimes ≤ state.retryTimes + 1; omega,
                Or.inr ⟨r, er, rfl, her, hperm, rfl⟩,
                fun _ => ⟨r, er, rfl, her⟩⟩

lemma loopStep_halt_spec {e : ScriptEntry} {state st : RetryState} {i : Nat}
    {recs : List (Nat × Bool)} {log : List (Int × Option Int)} {safe : Bool}
    (hinv : stateInv state = true)
    (h : loopStep e state i = .halt st recs log safe) :
    safe = true ∧ st.result.isSome = true ∧ StepOk state st log
    ∧ (recs = [(i, true)] ∨ recs = [(i, false), (i + 1, true)]) := by
  unfold loopStep at h
  rcases hg : getRetryChannel state e.rw e.ru with ⟨chanRes, state1, safe1⟩
  rw [hg] at h
  obtain ⟨hsafe1, hign1, hrt1, hres1, hmeta1⟩ := getRetryChannel_spec hinv hg
  have hguard : (state1.meta.isSome && state1.result.isSome) = true := by
    rw [hmeta1, hres1, stateInv_meta hinv, stateInv_result hinv]
    rfl
  have hstepok : StepOk state state1 log := by
    refine ⟨le_of_eq hrt1.symm, ?_, ?_⟩
    · intro id hm
      rw [hign1]
      exact hm
    · intro id hm
      rw [hign1] at hm
      exact Or.inl hm
  cases chanRes with
  | error er =>
    dsimp only at h
    rw [if_pos hguard] at h
    cases h
    refine ⟨hsafe1, ?_, hstepok, Or.inl rfl⟩
    rw [hres1]
    exact stateInv_result hinv
  | ok newChannel =>
    dsimp only at h
    by_cases hp : e.prepOk
    · rw [if_pos hp, if_pos hguard, if_pos hguard] at h
      dsimp only at h
      obtain ⟨state4, done2, safe2, hh⟩ :
          ∃ a b c, handleRetryResult e.ctxErr (RelayHelper e.outcome e.beyond e.ban).retry
            newChannel
            { state1 with
              meta := some newChannel
              result := some (RelayHelper e.outcome e.beyond e.ban).result } = (a, b, c) :=
        ⟨_, _, _, rfl⟩
      rw [hh] at h
      dsimp only at h
      obtain ⟨hsafe2, hres4, hmeta4, hrt4, hign4, hdone4⟩ := handleRetryResult_spec hh
      by_cases hd : (done2 || ((i : Int) == state4.retryTimes - 1)) = true
      · rw [if_pos hd] at h
        cases h
        refine ⟨?_, ?_, ?_, Or.inr rfl⟩
        · rw [hsafe1, hsafe2 rfl]
          rfl
        · rw [hres4]
          rfl
        · refine ⟨?_, ?_, ?_⟩
          · calc state.retryTimes = state1.retryTimes := hrt1.symm
              _ ≤ st.retryTimes := hrt4
          · intro id hm
            rcases hign4 with heq | ⟨r, er, _, _, _, happ⟩
            · rw [heq]
              dsimp only
              rw [hign1]
              exact hm
            · rw [happ]
              dsimp only
              rw [hign1]
              exact List.mem_append_left _ hm
          · intro id hm
            rcases hign4 with heq | ⟨r, er, hr, her, hperm, happ⟩
            · rw [heq] at hm
              dsimp only at hm
              rw [hign1] at hm
              exact Or.inl hm
            · rw [happ] at hm
              dsimp only at hm
              rw [hign1] at hm
              rcases List.mem_append.mp hm with hm | hm
              · exact Or.inl hm
              · right
                have hres3 : (RelayHelper e.outcome e.beyond e.ban).result = r := by
                  have h2 := hr
                  dsimp only at h2
                  exact Option.some.inj h2
                have hid : id = newChannel.id := by
                  simpa using hm
                refine ⟨er.statusCode, ?_, hperm⟩
                simp [hid, hres3, her]
      · rw [if_neg hd] at h
        cases h
    · rw [if_neg hp] at h
      rw [if_pos hguard] at h
      cases h
      refine ⟨hsafe1, ?_, hstepok, Or.inl rfl⟩
      rw [hres1]
      exact stateInv_result hinv

lemma loopStep_next_spec {e : ScriptEntry} {state st : RetryState} {i : Nat}
    {recs : List (Nat × Bool)} {log : List (Int × Option Int)} {safe : Bool}
    (hinv : stateInv state = true)
    (h : loopStep e state i = .next st recs log safe) :
    safe = true ∧ stateInv st = true ∧ StepOk state st log
    ∧ recs = [(i, false)] := by
  unfold loopStep at h
  rcases hg : getRetryChannel state e.rw e.ru with ⟨chanRes, state1, safe1⟩
  rw [hg] at h
  obtain ⟨hsafe1, hign1, hrt1, hres1, hmeta1⟩ := getRetryChannel_spec hinv hg
  have hguard : (state1.meta.isSome && state1.result.isSome) = true := by
    rw [hmeta1, hres1, stateInv_meta hinv, stateInv_result hinv]
    rfl
  cases chanRes with
  | error er =>
    dsimp only at h
    rw [if_pos hguard] at h
    cases h
  | ok newChannel =>
    dsimp only at h
    by_cases hp : e.prepOk
    · rw [if_pos hp, if_pos hguard, if_pos hguard] at h
      dsimp only at h
      obtain ⟨state4, done2, safe2, hh⟩ :
          ∃ a b c, handleRetryResult e.ctxErr (RelayHelper e.outcome e.beyond e.ban).retry
            newChannel
            { state1 with
              meta := some newChannel
              result := some (RelayHelper e.outcome e.beyond e.ban).result } = (a, b, c) :=
        ⟨_, _, _, rfl⟩
      rw [hh] at h
      dsimp only at h
      obtain ⟨hsafe2, hres4, hmeta4, hrt4, hign4, hdone4⟩ := handleRetryResult_spec hh
      by_cases hd : (done2 || ((i : Int) == state4.retryTimes - 1)) = true
      · rw [if_pos hd] at h
        cases h
      · rw [if_neg hd] at h
        cases h
        have hd2 : done2 = false := by
          have hd3 : (done2 || ((i : Int) == st.retryTimes - 1)) = false :=
            Bool.eq_false_iff.mpr hd
          exact (Bool.or_eq_false_iff.mp hd3).1
        refine ⟨?_, ?_, ?_, rfl⟩
        · rw [hsafe1, hsafe2 rfl]
          rfl
        · obtain ⟨r, er, hr, her⟩ := hdone4 hd2
          unfold stateInv
          rw [hmeta4, hres4]
          dsimp only
          have hres3 : (RelayHelper e.outcome e.beyond e.ban).result = r := by
            have h2 := hr
            dsimp only at h2
            exact Option.some.inj h2
          rw [hres3, Option.some_bind, her]
          rfl
        · refine ⟨?_, ?_, ?_⟩
          · calc state.retryTimes = state1.retryTimes := hrt1.symm
              _ ≤ st.retryTimes := hrt4
          · intro id hm
            rcases hign4 with heq | ⟨r, er, _, _, _, happ⟩
            · rw [heq]
              dsimp only
              rw [hign1]
              exact hm
            · rw [happ]
              dsimp only
              rw [hign1]
              exact List.mem_append_left _ hm
          · intro id hm
            rcases hign4 with heq | ⟨r, er, hr, her, hperm, happ⟩
            · rw [heq] at hm
              dsimp only at hm
              rw [hign1] at hm
              exact Or.inl hm
            · rw [happ] at hm
              dsimp only at hm
              rw [hign1] at hm
              rcases List.mem_append.mp hm with hm | hm
              · exact Or.inl hm
              · right
                have hres3 : (RelayHelper e.outcome e.beyond e.ban).result = r := by
                  have h2 := hr
                  dsimp only at h2
                  exact Option.some.inj h2
                have hid : id = newChannel.id := by
                  simpa using hm
                refine ⟨er.statusCode, ?_, hperm⟩
                simp [hid, hres3, her]
    · rw [if_neg hp] at h
      rw [if_pos hguard] at h
      cases h

lemma retryLoopGo_spec : ∀ (script : List ScriptEntry) (state : RetryState)
    (i : Nat) (out : LoopOut), stateInv state = true →
    retryLoopGo script state i = some out →
      (∃ n, out.recs = (List.range' i n).map (fun j => (j, false)) ++ [(i + n, true)])
      ∧ out.safe = true
      ∧ state.retryTimes ≤ out.final.retryTimes
      ∧ (∀ id ∈ state.ignoreChannelIDs, id ∈ out.final.ignoreChannelIDs)
      ∧ (∀ id ∈ out.final.ignoreChannelIDs,
          id ∈ state.ignoreChannelIDs ∨ noPermLogged out.log id) := by
  intro script
  induction script with
  | nil =>
    intro state i out hinv h
    simp [retryLoopGo] at h
  | cons e rest ih =>
    intro state i out hinv h
    unfold retryLoopGo at h
    rcases hstep : loopStep e state i with ⟨st, recs, log, safe⟩ | ⟨st, recs, log, safe⟩
    · rw [hstep] at h
      obtain ⟨hsafe, hres, ⟨hrt, hfwd, hbwd⟩, hrecs⟩ := loopStep_halt_spec hinv hstep
      have hemit : emitSafe st = true := hres
      cases h
      refine ⟨?_, ?_, hrt, hfwd, hbwd⟩
      · rcases hrecs with hrecs | hrecs
        · exact ⟨0, by simp [hrecs]⟩
        · exact ⟨1, by simp [hrecs, List.range'_succ]⟩
      · dsimp only
        rw [hsafe, hemit]
        rfl
    · rw [hstep] at h
      dsimp only at h
      obtain ⟨hsafe, hinv2, ⟨hrt, hfwd, hbwd⟩, hrecs⟩ := loopStep_next_spec hinv hstep
      cases hrec : retryLoopGo rest st (i + 1) with
      | none =>
        rw [hrec] at h
        cases h
      | some out2 =>
        rw [hrec] at h
        obtain ⟨⟨n2, hshape⟩, hsafe2, hrt2, hfwd2, hbwd2⟩ := ih st (i + 1) out2 hinv2 hrec
        cases h
        refine ⟨?_, ?_, le_trans hrt hrt2, ?_, ?_⟩
        · refine ⟨n2 + 1, ?_⟩
          dsimp only
          rw [hrecs, hshape, List.range'_succ]
          have : i + (n2 + 1) = i + 1 + n2 := by omega
          rw [this]
          simp
        · dsimp only
          rw [hsafe, hsafe2]
          rfl
        · intro id hm
          exact hfwd2 id (hfwd id hm)
        · intro id hm
          dsimp only at hm
          rcases hbwd2 id hm with hm2 | hm2
          · rcases hbwd id hm2 with hm3 | hm3
            · exact Or.inl hm3
            · exact Or.inr (noPermLogged_append_left hm3)
          · exact Or.inr (noPermLogged_append_right hm2)

lemma initRetryState_inv {retryTimes : Int} {ic : InitialChannel} {price : Price}
    {tok : Int} {res : HandleResult} {er : ErrorWithStatusCode}
    (her : res.error = some er) :
    stateInv (initRetryState retryTimes ic price tok res) = true := by
  unfold initRetryState
  rw [her]
  dsimp only
  by_cases hperm : channelHasPermission er.statusCode
  · simp only [hperm, Bool.not_true, Bool.false_eq_true, if_false]
    unfold stateInv
    dsimp only
    rw [Option.some_bind, her]
    rfl
  · simp only [Bool.not_eq_true] at hperm
    simp only [hperm, Bool.not_false, if_true]
    unfold stateInv
    dsimp only
    rw [Option.some_bind, her]
    rfl

lemma initRetryState_ignore (retryTimes : Int) (ic : InitialChannel) (price : Price)
    (tok : Int) (res : HandleResult) :
    (initRetryState retryTimes ic price tok res).ignoreChannelIDs = ic.ignoreChannelIDs
    ∨ (∃ er, res.error = some er ∧ channelHasPermission er.statusCode = false
        ∧ (initRetryState retryTimes ic price tok res).ignoreChannelIDs
            = ic.ignoreChannelIDs ++ [ic.channel.id]) := by
  unfold initRetryState
  cases her : res.error with
  | none => exact Or.inl rfl
  | some er =>
    dsimp only
    by_cases hperm : channelHasPermission er.statusCode
    · simp only [hperm, Bool.not_true, Bool.false_eq_true, if_false]
      exact Or.inl (by trivial)
    · simp only [Bool.not_eq_true] at hperm
      simp only [hperm, Bool.not_false, if_true]
      exact Or.inr ⟨er, rfl, hperm, by trivial⟩

lemma canonicalRecs_map_fst (k : Nat) :
    (((List.range k).map (fun j => (j, false)) ++ [(k, true)]).map Prod.fst :
      List Nat) = List.range (k + 1) := by
  rw [List.map_append, List.map_map, List.range_succ]
  rw [show (Prod.fst ∘ fun j : Nat => (j, false)) = id from rfl, List.map_id]
  rfl

lemma canonicalRecs_filter (k : Nat) :
    ((List.range k).map (fun j => (j, false)) ++ [(k, true)]).filter
      (fun p => p.2) = [(k, true)] := by
  rw [List.filter_append]
  have h1 : ((List.range k).map (fun j => (j, false))).filter (fun p => p.2) = [] := by
    rw [List.filter_eq_nil_iff]
    intro a ha
    obtain ⟨j, _, hj⟩ := List.mem_map.mp ha
    rw [← hj]
    simp
  rw [h1]
  rfl

/-- Claim C2: in the non-exhausted live-context case, a no-permission
failure appends the channel id to ignoreIds and increments retryTimes,
while a has-permission failure stores the channel as
lastHasPermissionChannel with the budget unchanged; the budget never
decreases across `handleRetryResult` nor across the whole loop, so it never
drops below the initially configured value. -/
theorem claim_C2 :
    (∀ (ch : Channel) (state st : RetryState) (done safe : Bool)
      (r : HandleResult) (er : ErrorWithStatusCode),
      state.exhausted = false → state.result = some r → r.error = some er →
      handleRetryResult false true ch state = (st, done, safe) →
      (channelHasPermission er.statusCode = false →
          st.ignoreChannelIDs = state.ignoreChannelIDs ++ [ch.id]
          ∧ st.retryTimes = state.retryTimes + 1)
      ∧ (channelHasPermission er.statusCode = true →
          st.lastHasPermissionChannel = some ch
          ∧ st.retryTimes = state.retryTimes))
    ∧ (∀ (ctxErr retry : Bool) (ch : Channel) (state st : RetryState)
        (done safe : Bool),
      handleRetryResult ctxErr retry ch state = (st, done, safe) →
      state.retryTimes ≤ st.retryTimes)
    ∧ (∀ (script : List ScriptEntry) (state : RetryState) (i : Nat) (out : LoopOut),
      stateInv state = true → retryLoopGo script state i = some out →
      state.retryTimes ≤ out.final.retryTimes) := by
  refine ⟨?_, ?_, ?_⟩
  · intro ch state st done safe r er hex hres her hh
    unfold handleRetryResult at hh
    simp only [Bool.false_eq_true, Bool.not_true, if_false, hres, hex] at hh
    simp only [her] at hh
    constructor
    · intro hperm
      simp only [hperm, Bool.not_false, if_true] at hh
      cases hh
      exact ⟨rfl, rfl⟩
    · intro hperm
      simp only [hperm, Bool.not_true, Bool.false_eq_true, if_false] at hh
      cases hh
      exact ⟨rfl, rfl⟩
  · intro ctxErr retry ch state st done safe hh
    exact (handleRetryResult_spec hh).2.2.2.1
  · intro script state i out hinv h
    exact (retryLoopGo_spec script state i out hinv h).2.2.1

/-- Claim C2 witness: concrete no-permission (403) retry appends id 2 and
bumps the budget from 3 to 4; concrete has-permission (500) retry stores
the channel and keeps the budget. -/
theorem claim_C2_witness :
    ((handleRetryResult false true ⟨2, ChannelStatus.enabled, 1⟩
        ⟨3, none, [], [], false, some ⟨1, ChannelStatus.enabled, 1⟩, ⟨0⟩, 0,
          some ⟨some ⟨403⟩⟩, []⟩).1.ignoreChannelIDs = [] ++ [2]
      ∧ (handleRetryResult false true ⟨2, ChannelStatus.enabled, 1⟩
          ⟨3, none, [], [], false, some ⟨1, ChannelStatus.enabled, 1⟩, ⟨0⟩, 0,
            some ⟨some ⟨403⟩⟩, []⟩).1.retryTimes = 3 + 1)
    ∧ ((handleRetryResult false true ⟨2, ChannelStatus.enabled, 1⟩
        ⟨3, none, [], [], false, some ⟨1, ChannelStatus.enabled, 1⟩, ⟨0⟩, 0,
          some ⟨some ⟨500⟩⟩, []⟩).1.lastHasPermissionChannel
            = some ⟨2, ChannelStatus.enabled, 1⟩
      ∧ (handleRetryResult false true ⟨2, ChannelStatus.enabled, 1⟩
          ⟨3, none, [], [], false, some ⟨1, ChannelStatus.enabled, 1⟩, ⟨0⟩, 0,
            some ⟨some ⟨500⟩⟩, []⟩).1.retryTimes = 3) := by
  constructor
  · obtain ⟨st, done, safe, hh⟩ :
        ∃ a b c, handleRetryResult false true ⟨2, ChannelStatus.enabled, 1⟩
          ⟨3, none, [], [], false, some ⟨1, ChannelStatus.enabled, 1⟩, ⟨0⟩, 0,
            some ⟨some ⟨403⟩⟩, []⟩ = (a, b, c) := ⟨_, _, _, rfl⟩
    have h := (claim_C2.1 ⟨2, ChannelStatus.enabled, 1⟩ _ st done safe
      ⟨some ⟨403⟩⟩ ⟨403⟩ rfl rfl rfl hh).1 (by decide)
    rw [hh]
    exact h
  · obtain ⟨st, done, safe, hh⟩ :
        ∃ a b c, handleRetryResult false true ⟨2, ChannelStatus.enabled, 1⟩
          ⟨3, none, [], [], false, some ⟨1, ChannelStatus.enabled, 1⟩, ⟨0⟩, 0,
            some ⟨some ⟨500⟩⟩, []⟩ = (a, b, c) := ⟨_, _, _, rfl⟩
    have h := (claim_C2.1 ⟨2, ChannelStatus.enabled, 1⟩ _ st done safe
      ⟨some ⟨500⟩⟩ ⟨500⟩ rfl rfl rfl hh).2 (by decide)
    rw [hh]
    exact h

/-- Claim C9: the status-code dereferences cannot fault: a non-done first
attempt has a non-nil error, the built retry state satisfies the loop
invariant, and every completed loop run reports all dereferences safe. -/
theorem claim_C9 :
    (∀ (bizErr : Option ErrorWithStatusCode) (retry : Bool) (retryTimes : Int)
      (ctxErr : Bool), handleRelayResult bizErr retry retryTimes ctxErr = false →
        bizErr.isSome = true)
    ∧ (∀ (retryTimes : Int) (ic : InitialChannel) (price : Price) (tok : Int)
      (res : HandleResult) (er : ErrorWithStatusCode), res.error = some er →
        stateInv (initRetryState retryTimes ic price tok res) = true)
    ∧ (∀ (script : List ScriptEntry) (state : RetryState) (i : Nat) (out : LoopOut),
        stateInv state = true → retryLoopGo script state i = some out →
        out.safe = true) := by
  refine ⟨?_, ?_, ?_⟩
  · intro bizErr retry retryTimes ctxErr h
    exact handleRelayResult_false h
  · intro retryTimes ic price tok res er her
    exact initRetryState_inv her
  · intro script state i out hinv h
    exact (retryLoopGo_spec script state i out hinv h).2.1

/-- Claim C9 witness: concrete instances of all three safety facts. -/
theorem claim_C9_witness :
    (some (⟨500⟩ : ErrorWithStatusCode)).isSome = true
    ∧ stateInv (initRetryState 1
        ⟨⟨1, ChannelStatus.enabled, 5⟩, false, [], [], [⟨1, ChannelStatus.enabled, 5⟩]⟩
        ⟨0⟩ 0 ⟨some ⟨500⟩⟩) = true
    ∧ ((retryLoopGo [⟨0, 0, true, ⟨some ⟨500⟩⟩, false, false, false⟩]
        (initRetryState 1
          ⟨⟨1, ChannelStatus.enabled, 5⟩, false, [], [], [⟨1, ChannelStatus.enabled, 5⟩]⟩
          ⟨0⟩ 0 ⟨some ⟨500⟩⟩) 0).map LoopOut.safe) = some true := by
  refine ⟨claim_C9.1 (some ⟨500⟩) true 1 false rfl,
    claim_C9.2.1 1 _ ⟨0⟩ 0 ⟨some ⟨500⟩⟩ ⟨500⟩ rfl, ?_⟩
  obtain ⟨lout, hl⟩ :
      ∃ l, retryLoopGo [⟨0, 0, true, ⟨some ⟨500⟩⟩, false, false, false⟩]
        (initRetryState 1
          ⟨⟨1, ChannelStatus.enabled, 5⟩, false, [], [], [⟨1, ChannelStatus.enabled, 5⟩]⟩
          ⟨0⟩ 0 ⟨some ⟨500⟩⟩) 0 = some l := ⟨_, rfl⟩
  have hs := claim_C9.2.2 _ _ 0 lout
    (claim_C9.2.1 1 _ ⟨0⟩ 0 ⟨some ⟨500⟩⟩ ⟨500⟩ rfl) hl
  rw [hl]
  simp [hs]

/-- Claim C4: for every request run that made k+1 attempts, the recorded
attempt indices are exactly 0..k, each exactly once, with exactly one
record carrying downstreamResult = true (the last), and all earlier
retried-away attempts carrying false. -/
theorem claim_C4 (designated : Option Channel) (bannedIds : List Int)
    (errorRates : List (Int × ℚ)) (migrated : List Channel) (rw ru rw2 ru2 : Nat)
    (price : Price) (tok : Int) (firstOutcome : HandleResult) (beyond0 ban0 : Bool)
    (retryTimes : Int) (ctxErr0 : Bool) (script : List ScriptEntry) (out : RunOut)
    (h : relay designated bannedIds errorRates migrated rw ru rw2 ru2 price tok
      firstOutcome beyond0 ban0 retryTimes ctxErr0 script = some out) :
    ∃ k, out.recs = (List.range k).map (fun j => (j, false)) ++ [(k, true)]
      ∧ out.recs.map Prod.fst = List.range (k + 1)
      ∧ out.recs.filter (fun p => p.2) = [(k, true)] := by
  unfold relay at h
  cases hic : getInitialChannel designated bannedIds errorRates migrated rw ru rw2 ru2 with
  | none =>
    rw [hic] at h
    simp at h
  | some ic =>
    rw [hic] at h
    dsimp only at h
    by_cases hdone : handleRelayResult firstOutcome.error
        (RelayHelper firstOutcome beyond0 ban0).retry retryTimes ctxErr0 = true
    · rw [if_pos hdone] at h
      cases h
      refine ⟨0, by simp, ?_, ?_⟩
      · dsimp only
        decide
      · dsimp only
        decide
    · rw [if_neg hdone] at h
      have hb : handleRelayResult firstOutcome.error
          (RelayHelper firstOutcome beyond0 ban0).retry retryTimes ctxErr0 = false :=
        Bool.eq_false_iff.mpr hdone
      obtain ⟨er, her⟩ := Option.isSome_iff_exists.mp (handleRelayResult_false hb)
      have hinv0 : stateInv (initRetryState retryTimes ic price tok firstOutcome)
          = true := initRetryState_inv her
      cases hloop : retryLoopGo script
          (initRetryState retryTimes ic price tok firstOutcome) 0 with
      | none =>
        rw [hloop] at h
        simp at h
      | some lout =>
        rw [hloop] at h
        dsimp only at h
        cases h
        obtain ⟨⟨n, hshape⟩, _, _, _, _⟩ :=
          retryLoopGo_spec script _ 0 lout hinv0 hloop
        refine ⟨n, ?_, ?_, ?_⟩
        · dsimp only
          rw [hshape, ← List.range_eq_range', Nat.zero_add]
        · dsimp only
          rw [hshape, ← List.range_eq_range', Nat.zero_add]
          exact canonicalRecs_map_fst n
        · dsimp only
          rw [hshape, ← List.range_eq_range', Nat.zero_add]
          exact canonicalRecs_filter n

/-- Claim C4 witness: a designated channel succeeding on the first attempt
records exactly attempt 0 with downstreamResult = true. -/
theorem claim_C4_witness :
    relay (some ⟨1, ChannelStatus.enabled, 5⟩) [] [] [] 0 0 0 0 ⟨0⟩ 0 ⟨none⟩
        false false 3 false []
      = some ⟨[(0, true)], [(1, none)], false, none⟩
    ∧ ∃ k, ([(0, true)] : List (Nat × Bool))
        = (List.range k).map (fun j => (j, false)) ++ [(k, true)] := by
  refine ⟨rfl, ?_⟩
  obtain ⟨k, h1, _, _⟩ := claim_C4 (some ⟨1, ChannelStatus.enabled, 5⟩) [] [] []
    0 0 0 0 ⟨0⟩ 0 ⟨none⟩ false false 3 false []
    ⟨[(0, true)], [(1, none)], false, none⟩ rfl
  exact ⟨k, h1⟩

/-- Claim C6 counterexample: with banned snapshot [42], channel 42 is a
member of the retry state's ignoreIds for the whole request even though no
attempt was ever made on channel 42 (the log holds only channel 1), so
membership in ignoreIds is not equivalent to having returned a
no-permission status during the request. -/
theorem claim_C6_counterexample :
    ((relay none [42] [] [⟨1, ChannelStatus.enabled, 5⟩] 0 0 0 0 ⟨0⟩ 0
        ⟨some ⟨500⟩⟩ false false 1 false
        [⟨0, 0, true, ⟨some ⟨500⟩⟩, false, false, false⟩]).bind
      RunOut.final).map (fun st => decide (42 ∈ st.ignoreChannelIDs)) = some true
    ∧ ((relay none [42] [] [⟨1, ChannelStatus.enabled, 5⟩] 0 0 0 0 ⟨0⟩ 0
        ⟨some ⟨500⟩⟩ false false 1 false
        [⟨0, 0, true, ⟨some ⟨500⟩⟩, false, false, false⟩]).map
      (fun out => decide (∀ p ∈ out.log, p.1 ≠ 42))) = some true := by
  decide

/-- Claim C6 (amended): a channel id is in the retry state's ignoreIds iff
it came from the banned-channel snapshot seeded at request entry or it was
appended after returning a no-permission status during the request; the
snapshot ids are always members, and every member outside the snapshot is a
logged no-permission responder. -/
theorem claim_C6_amended (designated : Option Channel) (bannedIds : List Int)
    (errorRates : List (Int × ℚ)) (migrated : List Channel) (rw ru rw2 ru2 : Nat)
    (price : Price) (tok : Int) (firstOutcome : HandleResult) (beyond0 ban0 : Bool)
    (retryTimes : Int) (ctxErr0 : Bool) (script : List ScriptEntry)
    (out : RunOut) (st : RetryState) (ic : InitialChannel)
    (h : relay designated bannedIds errorRates migrated rw ru rw2 ru2 price tok
      firstOutcome beyond0 ban0 retryTimes ctxErr0 script = some out)
    (hfin : out.final = some st)
    (hic : getInitialChannel designated bannedIds errorRates migrated rw ru rw2 ru2
      = some ic) :
    (∀ id ∈ ic.ignoreChannelIDs, id ∈ st.ignoreChannelIDs)
    ∧ (∀ id ∈ st.ignoreChannelIDs,
        id ∈ ic.ignoreChannelIDs ∨ noPermLogged out.log id) := by
  unfold relay at h
  rw [hic] at h
  dsimp only at h
  by_cases hdone : handleRelayResult firstOutcome.error
      (RelayHelper firstOutcome beyond0 ban0).retry retryTimes ctxErr0 = true
  · rw [if_pos hdone] at h
    cases h
    simp at hfin
  · rw [if_neg hdone] at h
    have hb : handleRelayResult firstOutcome.error
        (RelayHelper firstOutcome beyond0 ban0).retry retryTimes ctxErr0 = false :=
      Bool.eq_false_iff.mpr hdone
    obtain ⟨er, her⟩ := Option.isSome_iff_exists.mp (handleRelayResult_false hb)
    have hinv0 : stateInv (initRetryState retryTimes ic price tok firstOutcome)
        = true := initRetryState_inv her
    cases hloop : retryLoopGo script
        (initRetryState retryTimes ic price tok firstOutcome) 0 with
    | none =>
      rw [hloop] at h
      simp at h
    | some lout =>
      rw [hloop] at h
      dsimp only at h
      cases h
      dsimp only at hfin
      have hst : st = lout.final := (Option.some.inj hfin).symm
      subst hst
      obtain ⟨_, _, _, hfwd, hbwd⟩ :=
        retryLoopGo_spec script _ 0 lout hinv0 hloop
      rcases initRetryState_ignore retryTimes ic price tok firstOutcome with
        heq | ⟨er2, her2, hperm2, happ⟩
      · constructor
        · intro id hm
          apply hfwd
          rw [heq]
          exact hm
        · intro id hm
          rcases hbwd id hm with hm2 | hm2
          · rw [heq] at hm2
            exact Or.inl hm2
          · exact Or.inr (noPermLogged_append_right hm2)
      · constructor
        · intro id hm
          apply hfwd
          rw [happ]
          exact List.mem_append_left _ hm
        · intro id hm
          rcases hbwd id hm with hm2 | hm2
          · rw [happ] at hm2
            rcases List.mem_append.mp hm2 with hm3 | hm3
            · exact Or.inl hm3
            · right
              have hid : id = ic.channel.id := by simpa using hm3
              refine ⟨er2.statusCode, ?_, hperm2⟩
              dsimp only
              apply List.mem_append_left
              simp [hid, her2]
          · exact Or.inr (noPermLogged_append_right hm2)

/-- Claim C6 witness: in the banned-snapshot run, the amended invariant
puts 42 into the final ignore list. -/
theorem claim_C6_witness :
    ((relay none [42] [] [⟨1, ChannelStatus.enabled, 5⟩] 0 0 0 0 ⟨0⟩ 0
        ⟨some ⟨500⟩⟩ false false 1 false
        [⟨0, 0, true, ⟨some ⟨500⟩⟩, false, false, false⟩]).bind
      RunOut.final).map (fun st => decide (42 ∈ st.ignoreChannelIDs))
      = some true := by
  have hout : relay none [42] [] [⟨1, ChannelStatus.enabled, 5⟩] 0 0 0 0 ⟨0⟩ 0
      ⟨some ⟨500⟩⟩ false false 1 false
      [⟨0, 0, true, ⟨some ⟨500⟩⟩, false, false, false⟩]
    = some ⟨[(0, false), (1, true)], [(1, some 500), (1, some 500)], true,
      some ⟨1, some ⟨1, ChannelStatus.enabled, 5⟩, [42], [], false,
        some ⟨1, ChannelStatus.enabled, 5⟩, ⟨0⟩, 0, some ⟨some ⟨500⟩⟩,
        [⟨1, ChannelStatus.enabled, 5⟩]⟩⟩ := by decide
  have h := claim_C6_amended none [42] [] [⟨1, ChannelStatus.enabled, 5⟩] 0 0 0 0
    ⟨0⟩ 0 ⟨some ⟨500⟩⟩ false false 1 false
    [⟨0, 0, true, ⟨some ⟨500⟩⟩, false, false, false⟩]
    ⟨[(0, false), (1, true)], [(1, some 500), (1, some 500)], true,
      some ⟨1, some ⟨1, ChannelStatus.enabled, 5⟩, [42], [], false,
        some ⟨1, ChannelStatus.enabled, 5⟩, ⟨0⟩, 0, some ⟨some ⟨500⟩⟩,
        [⟨1, ChannelStatus.enabled, 5⟩]⟩⟩
    ⟨1, some ⟨1, ChannelStatus.enabled, 5⟩, [42], [], false,
      some ⟨1, ChannelStatus.enabled, 5⟩, ⟨0⟩, 0, some ⟨some ⟨500⟩⟩,
      [⟨1, ChannelStatus.enabled, 5⟩]⟩
    ⟨⟨1, ChannelStatus.enabled, 5⟩, false, [42], [], [⟨1, ChannelStatus.enabled, 5⟩]⟩
    hout rfl rfl
  have h42 := h.1 42 (by decide)
  rw [hout]
  simp [h42]

/-- Claim C7 counterexample: a run whose retry-loop classification sees a
cancelled context terminates and records the in-flight attempt with
downstreamResult = true, yet `emitted` is true: the coordinator still
writes the error response via `c.JSON` after the loop, contradicting
"exits without emitting a new HTTP response". -/
theorem claim_C7_counterexample :
    ((retryLoopGo [⟨0, 0, true, ⟨some ⟨429⟩⟩, false, false, true⟩]
        (initRetryState 1 ⟨⟨1, ChannelStatus.enabled, 5⟩, false, [], [],
          [⟨1, ChannelStatus.enabled, 5⟩]⟩ ⟨0⟩ 0 ⟨some ⟨500⟩⟩) 0).map
      (fun lout => (lout.recs, lout.emitted))) = some ([(0, false), (1, true)], true) := by
  decide

/-- Claim C7 (amended): when the context is cancelled at the retry-loop
classification point, the loop terminates at that iteration, records the
in-flight attempt with downstreamResult = true, and the final state holds
that attempt's result — so the post-loop `c.JSON` emission still fires
whenever that result carries an error. -/
theorem claim_C7_amended (e : ScriptEntry) (rest : List ScriptEntry)
    (state : RetryState) (i : Nat) (ch : Channel) (st1 : RetryState) (safe1 : Bool)
    (hinv : stateInv state = true) (hctx : e.ctxErr = true) (hprep : e.prepOk = true)
    (hch : getRetryChannel state e.rw e.ru = (.ok ch, st1, safe1)) :
    ∃ lout, retryLoopGo (e :: rest) state i = some lout
      ∧ lout.recs = [(i, false), (i + 1, true)]
      ∧ lout.emitted = e.outcome.error.isSome
      ∧ lout.final.result = some e.outcome := by
  obtain ⟨hsafe1, hign1, hrt1, hres1, hmeta1⟩ := getRetryChannel_spec hinv hch
  have hguard : (st1.meta.isSome && st1.result.isSome) = true := by
    rw [hmeta1, hres1, stateInv_meta hinv, stateInv_result hinv]
    rfl
  have hstep : loopStep e state i = .halt
      { st1 with
        meta := some ch
        result := some (RelayHelper e.outcome e.beyond e.ban).result }
      ([(i, false)] ++ [(i + 1, true)])
      [(ch.id, (RelayHelper e.outcome e.beyond e.ban).result.error.map
        (fun er => er.statusCode))]
      (safe1 && true) := by
    unfold loopStep
    rw [hch]
    dsimp only
    rw [if_pos hprep, if_pos hguard, if_pos hguard]
    dsimp only
    rw [hctx]
    rw [show ∀ (r : Bool) (s : RetryState), handleRetryResult true r ch s
      = (s, true, true) from fun r s => rfl]
    dsimp only
    rfl
  refine ⟨⟨{ st1 with
      meta := some ch
      result := some (RelayHelper e.outcome e.beyond e.ban).result },
    [(i, false), (i + 1, true)],
    [(ch.id, (RelayHelper e.outcome e.beyond e.ban).result.error.map
      (fun er => er.statusCode))],
    emittedOf { st1 with
      meta := some ch
      result := some (RelayHelper e.outcome e.beyond e.ban).result },
    (safe1 && true) && emitSafe { st1 with
      meta := some ch
      result := some (RelayHelper e.outcome e.beyond e.ban).result }⟩,
    ?_, rfl, ?_, ?_⟩
  · unfold retryLoopGo
    rw [hstep]
    dsimp only
    rfl
  · dsimp only
    unfold emittedOf
    dsimp only
    rw [RelayHelper_result]
  · dsimp only
    rw [RelayHelper_result]

/-- Claim C7 witness: concrete cancelled-context iteration: the loop halts,
records (0, false) and (1, true), and the final state carries the 429
result so the error response is emitted. -/
theorem claim_C7_witness :
    ((retryLoopGo [⟨0, 0, true, ⟨some ⟨429⟩⟩, false, false, true⟩]
        (initRetryState 1 ⟨⟨1, ChannelStatus.enabled, 5⟩, false, [], [],
          [⟨1, ChannelStatus.enabled, 5⟩]⟩ ⟨0⟩ 0 ⟨some ⟨500⟩⟩) 0).map
      (fun lout => (lout.recs, lout.emitted, lout.final.result)))
      = some ([(0, false), (1, true)], true, some ⟨some ⟨429⟩⟩) := by
  obtain ⟨lout, hl, hrecs, hemit, hfinres⟩ :=
    claim_C7_amended ⟨0, 0, true, ⟨some ⟨429⟩⟩, false, false, true⟩ []
      (initRetryState 1 ⟨⟨1, ChannelStatus.enabled, 5⟩, false, [], [],
        [⟨1, ChannelStatus.enabled, 5⟩]⟩ ⟨0⟩ 0 ⟨some ⟨500⟩⟩) 0
      ⟨1, ChannelStatus.enabled, 5⟩
      (initRetryState 1 ⟨⟨1, ChannelStatus.enabled, 5⟩, false, [], [],
        [⟨1, ChannelStatus.enabled, 5⟩]⟩ ⟨0⟩ 0 ⟨some ⟨500⟩⟩) true
      (by decide) rfl rfl rfl
  rw [hl]
  simp only [Option.map_some']
  rw [hrecs, hemit, hfinres]
  rfl

end Aiproxy
